import Mathlib

/-!
Verification of the EstimaTB basal-temperature estimator against its
specification.  The repository holds two Streamlit variants of the same
engine:

* `src/app.py` — strict column names, MSE (QME) minimisation over a fixed
  candidate grid `np.arange(0, 20.5, 0.5)`;
* `src/app_agrometeorologia_excel.py` — fuzzy column detection, R²
  maximisation over a caller-configured grid
  `np.arange(tb_min, tb_max + tb_step, tb_step)`.

The embedding below models pandas/numpy missing values (`NaN`/`NaT`) as
`Option` over exact rationals: `none` stands for a missing value and every
arithmetic operation propagates it exactly as the float `NaN` does in the
corresponding numpy/pandas primitive (noted at each definition).  Dates are
abstracted to integers once parsed.  All definitions are computable so that
concrete tables can be evaluated inside proofs.
-/

namespace EstimaTB

/-- A raw spreadsheet cell of a numeric column: either a number, free text,
or an empty cell. -/
inductive Cell where
  | num (q : ℚ)
  | text (s : String)
  | empty
deriving DecidableEq

/-- Behaviour of `pd.to_numeric(col, errors='coerce')` on one cell:
numbers pass through, anything non-numeric becomes missing (NaN), and no
exception is raised. -/
def toNumericCoerce : Cell → Option ℚ
  | .num q => some q
  | .text _ => none
  | .empty => none

/-- A raw cell of the date column: either a value both parsing strategies
can read (abstracted to its day ordinal) or an unparseable string. -/
inductive DateCell where
  | parseable (d : ℤ)
  | unparseable (s : String)
deriving DecidableEq

/-- Behaviour of `pd.to_datetime(col, dayfirst=True, errors='coerce')` on
one cell: parseable values become dates, unparseable ones become `NaT`
(missing). -/
def toDatetimeCoerce : DateCell → Option ℤ
  | .parseable d => some d
  | .unparseable _ => none

/-- Behaviour of `pd.to_datetime(col, errors='raise')` when `col` is the
column that the first `errors='coerce'` pass already overwrote: the column
now has datetime dtype, where both dates and `NaT` are legal values, so the
call returns the column unchanged and never raises (src/app.py line 53 is
applied to the result of line 50, not to the original strings). -/
def toDatetimeOnCoerced (col : List (Option ℤ)) : Except String (List (Option ℤ)) :=
  .ok col

/-- The raw uploaded table of src/app.py: presence flags for the four
required columns `Data`, `Tmin`, `Tmax`, `NF`, and the cell contents of
each column. -/
structure RawTable where
  hasData : Bool
  hasTmin : Bool
  hasTmax : Bool
  hasNF : Bool
  dataCol : List DateCell
  tminCol : List Cell
  tmaxCol : List Cell
  nfCol : List Cell
deriving DecidableEq

/-- The validation messages src/app.py's `validate_data` can append to its
`errors` list (lines 45, 56, 64, 69). -/
inductive Msg where
  | missingCols
  | dateUnparseable
  | tminGtTmax
  | nfDecrease
deriving DecidableEq

/-- The dataframe after `validate_data` converted its columns: dates and
numeric columns with missing values made explicit. -/
structure VTable where
  dataCol : List (Option ℤ)
  tmin : List (Option ℚ)
  tmax : List (Option ℚ)
  nf : List (Option ℚ)
deriving DecidableEq

/-- One row of the `(df['Tmin'] > df['Tmax'])` test: pandas comparisons
with NaN are `False`, so only rows where both temperatures are present and
`Tmin > Tmax` count (src/app.py line 63). -/
def tmaxLtTmin : Option ℚ × Option ℚ → Bool
  | (some a, some b) => decide (b < a)
  | _ => false

/-- The `nf_series.diff() < 0` test on the NaN-dropped leaf-count series:
true when some consecutive pair of present measurements decreases
(src/app.py lines 67-68). -/
def nfDecreaseCheck (xs : List ℚ) : Bool :=
  (xs.zip xs.tail).any (fun p => decide (p.2 < p.1))

/-- Shallow embedding of `validate_data` (src/app.py lines 37-71).
Missing required columns return early with the raw frame unconverted
(modelled as `none`) and a single fatal message.  Otherwise the date column
is parsed day-first with coercion; when some value failed, line 53 re-runs
`pd.to_datetime(errors='raise')` on the already-coerced column, which never
raises, so the `except` branch appending `Msg.dateUnparseable` is dead code
(kept here to mirror the source).  Numeric columns are coerced, and the two
data-quality checks append their messages. -/
def validate_data (df : RawTable) : Option VTable × List Msg :=
  if (df.hasData && df.hasTmin && df.hasTmax && df.hasNF) = false then
    (none, [Msg.missingCols])
  else
    let dates1 := df.dataCol.map toDatetimeCoerce
    let dateStep : List (Option ℤ) × List Msg :=
      if dates1.any (fun d => d.isNone) then
        match toDatetimeOnCoerced dates1 with
        | .ok ds => (ds, [])
        | .error _ => (dates1, [Msg.dateUnparseable])
      else (dates1, [])
    let tmin := df.tminCol.map toNumericCoerce
    let tmax := df.tmaxCol.map toNumericCoerce
    let nf := df.nfCol.map toNumericCoerce
    let msgs1 := if (tmin.zip tmax).any tmaxLtTmin then [Msg.tminGtTmax] else []
    let msgs2 := if nfDecreaseCheck (nf.filterMap id) then [Msg.nfDecrease] else []
    (some ⟨dateStep.1, tmin, tmax, nf⟩, dateStep.2 ++ msgs1 ++ msgs2)

/-! ## Shared regression arithmetic

Both variants fit `sklearn.linear_model.LinearRegression` (ordinary least
squares with an intercept) and score with `mean_squared_error` /
`r2_score`.  sklearn centres the data and solves least squares, so on a
sample whose x-values all coincide the minimum-norm solution has slope 0
and intercept equal to the mean response; these formulas reproduce that. -/

/-- Arithmetic mean of a list of rationals (`np.mean`). -/
def listMean (xs : List ℚ) : ℚ := xs.sum / xs.length

/-- Squaring, written out as a product. -/
def sq (q : ℚ) : ℚ := q * q

/-- Ordinary least squares fit of `y ≈ slope * x + intercept` as performed
by `LinearRegression().fit`: returns `(slope, intercept)`.  When the
x-values have zero variance the centred least-squares problem is solved by
the minimum-norm solution slope 0, intercept `mean y`. -/
def olsFit (pts : List (ℚ × ℚ)) : ℚ × ℚ :=
  let xm := listMean (pts.map Prod.fst)
  let ym := listMean (pts.map Prod.snd)
  let sxx := (pts.map (fun p => sq (p.1 - xm))).sum
  let sxy := (pts.map (fun p => (p.1 - xm) * (p.2 - ym))).sum
  let slope := if sxx = 0 then 0 else sxy / sxx
  (slope, ym - slope * xm)

/-- `sklearn.metrics.mean_squared_error` of the fitted line on the
sample. -/
def msePts (pts : List (ℚ × ℚ)) (slope intercept : ℚ) : ℚ :=
  (pts.map (fun p => sq (p.2 - (slope * p.1 + intercept)))).sum / pts.length

/-- `sklearn.metrics.r2_score` of the fitted line on the sample, including
sklearn's constant-target convention: when the total sum of squares is
zero the score is 1 if the residual sum of squares is also zero and 0
otherwise. -/
def r2Pts (pts : List (ℚ × ℚ)) (slope intercept : ℚ) : ℚ :=
  let ym := listMean (pts.map Prod.snd)
  let ssRes := (pts.map (fun p => sq (p.2 - (slope * p.1 + intercept)))).sum
  let ssTot := (pts.map (fun p => sq (p.2 - ym))).sum
  if ssTot = 0 then (if ssRes = 0 then 1 else 0) else 1 - ssRes / ssTot

/-- `r2_score` additionally warns and returns NaN (here `none`) on fewer
than two samples; `model.score` in src/app.py inherits this. -/
def r2Sklearn (pts : List (ℚ × ℚ)) (slope intercept : ℚ) : Option ℚ :=
  if pts.length < 2 then none else some (r2Pts pts slope intercept)

namespace App

/-! ## The src/app.py engine

`calculate_tb` mutates its dataframe in place, adding the derived columns
`Tmed`, `STd`, `STa` next to the four base columns; the state is made
explicit as `EngineDF` and threaded through the grid loop so that the
frame claim (C9) is a statement about the final state. -/

/-- The dataframe as `calculate_tb` sees it: the four base columns handed
over by validation plus the derived columns it writes (empty before they
are first assigned). -/
structure EngineDF where
  dataCol : List (Option ℤ)
  tmin : List (Option ℚ)
  tmax : List (Option ℚ)
  nf : List (Option ℚ)
  tmed : List (Option ℚ)
  std : List (Option ℚ)
  sta : List (Option ℚ)
deriving DecidableEq

/-- One row of the results table built at src/app.py line 108:
`{'Tb': tb, 'QME': mse, 'R2': r2}`; `r2` is `none` when sklearn's
`r2_score` is NaN (single-point sample). -/
structure FitRow where
  tb : ℚ
  qme : ℚ
  r2 : Option ℚ
deriving DecidableEq

/-- `df['Tmed'] = (df['Tmin'] + df['Tmax']) / 2` on one row; NaN
propagates (src/app.py line 76). -/
def tmedCell : Option ℚ → Option ℚ → Option ℚ
  | some a, some b => some ((a + b) / 2)
  | _, _ => none

/-- Lines 86-87: `df['STd'] = df['Tmed'] - tb` then
`df.loc[df['STd'] < 0, 'STd'] = 0`.  `NaN - tb` is NaN and `NaN < 0` is
False, so missing values stay missing and present values are clamped at
zero. -/
def stdCol (tb : ℚ) (tmed : List (Option ℚ)) : List (Option ℚ) :=
  tmed.map (fun t => t.map (fun v => if v - tb < 0 then 0 else v - tb))

/-- `pandas.Series.cumsum` with its default `skipna=True`: a missing value
yields a missing output at its own position but does not poison the
running total, which continues over the present values
(src/app.py line 90). -/
def cumsumPandasAux (acc : ℚ) : List (Option ℚ) → List (Option ℚ)
  | [] => []
  | some v :: xs => some (acc + v) :: cumsumPandasAux (acc + v) xs
  | none :: xs => none :: cumsumPandasAux acc xs

/-- `df['STa'] = df['STd'].cumsum()` (src/app.py line 90). -/
def cumsumPandas (xs : List (Option ℚ)) : List (Option ℚ) :=
  cumsumPandasAux 0 xs

/-- Lines 78 and 93-97: the regression sample pairs `(STa, NF)` taken at
the rows of `pheno_df = df.dropna(subset=['NF'])`, i.e. the rows whose
leaf count is present; the `STa` component may still be missing. -/
def regPairs (sta nf : List (Option ℚ)) : List (Option ℚ × ℚ) :=
  (sta.zip nf).filterMap (fun p => p.2.map (fun y => (p.1, y)))

/-- Lines 82: `base_temps = np.arange(0, 20.5, 0.5)` — the 41 candidates
0, 0.5, …, 20. -/
def base_temps : List ℚ :=
  (List.range 41).map (fun (k : ℕ) => (k : ℚ) / 2)

/-- Body of the loop at src/app.py lines 84-108 for one candidate: write
the `STd` and `STa` columns into the frame, gather the sample, and run the
sklearn fit.  `LinearRegression().fit` raises `ValueError` on an empty
sample or on a sample containing NaN, which is modelled as `Except.error`
with sklearn's message. -/
def fitCandidate (df : EngineDF) (tb : ℚ) : EngineDF × Except String FitRow :=
  let dfS := { df with std := stdCol tb df.tmed }
  let dfA := { dfS with sta := cumsumPandas dfS.std }
  let pairs := regPairs dfA.sta dfA.nf
  (dfA,
    if pairs.length = 0 then .error "Found array with 0 sample(s)"
    else if (pairs.map Prod.fst).any (fun x => x.isNone) then
      .error "Input contains NaN"
    else
      let pts := pairs.map (fun p => (p.1.getD 0, p.2))
      let si := olsFit pts
      .ok { tb := tb, qme := msePts pts si.1 si.2, r2 := r2Sklearn pts si.1 si.2 })

/-- The grid loop of src/app.py lines 84-108: iterate over the candidate
temperatures, threading the mutated dataframe and accumulating result
rows; an exception from a candidate aborts the whole loop. -/
def gridLoop (df : EngineDF) (acc : List FitRow) :
    List ℚ → EngineDF × Except String (List FitRow)
  | [] => (df, .ok acc)
  | tb :: rest =>
    match fitCandidate df tb with
    | (df2, .ok row) => gridLoop df2 (acc ++ [row]) rest
    | (df2, .error e) => (df2, .error e)

/-- `results_df.loc[results_df['QME'].idxmin()]` (src/app.py line 111):
pandas `idxmin` returns the index of the first row attaining the minimal
QME; on an empty frame it raises. -/
def bestRow : List FitRow → Option FitRow
  | [] => none
  | r :: rs => some (rs.foldl (fun b a => if a.qme < b.qme then a else b) r)

/-- The engine's frame right after src/app.py line 76 wrote the `Tmed`
column: base columns from the validated table, the other two derived
columns still absent. -/
def engineStart (vt : VTable) : EngineDF :=
  { dataCol := vt.dataCol, tmin := vt.tmin, tmax := vt.tmax, nf := vt.nf,
    tmed := List.zipWith tmedCell vt.tmin vt.tmax, std := [], sta := [] }

/-- Lines 110-111: build the results frame and select the best row; the
`idxmin` of an empty frame raises. -/
def finishGrid (df2 : EngineDF) (rows : List FitRow) :
    EngineDF × Except String (List FitRow × FitRow) :=
  match bestRow rows with
  | none => (df2, .error "attempt to get argmin of an empty sequence")
  | some b => (df2, .ok (rows, b))

/-- Shallow embedding of `calculate_tb` (src/app.py lines 74-113) on a
validated table: returns the final dataframe state together with either
the results table and the best row, or the message of the exception that
escaped. -/
def calculate_tb (vt : VTable) : EngineDF × Except String (List FitRow × FitRow) :=
  match gridLoop (engineStart vt) [] base_temps with
  | (df2, .error e) => (df2, .error e)
  | (df2, .ok rows) => finishGrid df2 rows

/-- The module-level logic of src/app.py lines 144-154: validate, and run
`calculate_tb` (on a copy of the validated frame) only when the message
list is empty; `none` means the estimation was never attempted. -/
def appRun (df : RawTable) : Option (Except String (List FitRow × FitRow)) :=
  match validate_data df with
  | (some vt, []) => some (calculate_tb vt).2
  | _ => none

end App

namespace Excel

/-! ## The src/app_agrometeorologia_excel.py engine

Here the thermal-sum pipeline runs on numpy arrays, so a missing value
(NaN) poisons everything downstream: `np.maximum(NaN - tb, 0)` is NaN and
`np.cumsum` keeps returning NaN once one entered the running total.  The
regression masks NaN pairs out before fitting and demands at least two
clean points, else it yields the degenerate placeholder. -/

/-- `calcular_tmed` (lines 41-43): `(tmin + tmax) / 2` with NaN
propagation, applied to the `pd.to_numeric(..., errors='coerce')`
columns. -/
def calcular_tmed (tmin tmax : List (Option ℚ)) : List (Option ℚ) :=
  List.zipWith
    (fun a b =>
      match a, b with
      | some x, some y => some ((x + y) / 2)
      | _, _ => none)
    tmin tmax

/-- `calcular_std` (lines 45-47): `np.maximum(tmed - tb, 0)`; `np.maximum`
propagates NaN. -/
def calcular_std (tmed : List (Option ℚ)) (tb : ℚ) : List (Option ℚ) :=
  tmed.map (fun t => t.map (fun v => max (v - tb) 0))

/-- Float addition with NaN propagation, as numpy performs it inside
`np.cumsum`. -/
def npAdd : Option ℚ → Option ℚ → Option ℚ
  | some a, some b => some (a + b)
  | _, _ => none

/-- `np.cumsum` semantics on a possibly-NaN array: once a NaN enters the
running sum every later partial sum is NaN as well. -/
def cumsumNumpyAux (acc : Option ℚ) : List (Option ℚ) → List (Option ℚ)
  | [] => []
  | x :: xs => npAdd acc x :: cumsumNumpyAux (npAdd acc x) xs

/-- `calcular_sta` (lines 49-51): `np.cumsum(std)`. -/
def calcular_sta (std : List (Option ℚ)) : List (Option ℚ) :=
  cumsumNumpyAux (some 0) std

/-- Line 62: `mask = ~(np.isnan(x) | np.isnan(y))` followed by selecting
the masked entries — the pairs where both the covariate and the response
are present, in order. -/
def cleanPairs (x y : List (Option ℚ)) : List (ℚ × ℚ) :=
  (x.zip y).filterMap
    (fun p =>
      match p with
      | (some a, some b) => some (a, b)
      | _ => none)

/-- The 5-tuple returned by `realizar_regressao` (lines 53-73): slope,
intercept, R², cleaned covariates and predictions; the first two and last
two are `None` on the degenerate paths, where R² is the placeholder 0. -/
structure RegResult where
  coef : Option ℚ
  intercept : Option ℚ
  r2 : ℚ
  xClean : Option (List ℚ)
  yPred : Option (List ℚ)
deriving DecidableEq

/-- Shallow embedding of `realizar_regressao` (lines 53-73): give up with
the placeholder when the series is no longer than the emergence offset or
when fewer than two NaN-free pairs remain; otherwise fit OLS and score
with `r2_score`. -/
def realizar_regressao (x y : List (Option ℚ)) (inicio : ℕ) : RegResult :=
  if x.length ≤ inicio then ⟨none, none, 0, none, none⟩
  else
    let pairs := cleanPairs (x.drop inicio) (y.drop inicio)
    if pairs.length < 2 then ⟨none, none, 0, none, none⟩
    else
      let si := olsFit pairs
      ⟨some si.1, some si.2, r2Pts pairs si.1 si.2,
        some (pairs.map Prod.fst),
        some (pairs.map (fun p => si.1 * p.1 + si.2))⟩

/-- One row of the `resultados` table (lines 93-98). -/
structure Row where
  tb : ℚ
  r2 : ℚ
  coef : ℚ
  intercept : ℚ
deriving DecidableEq

instance : Inhabited Row := ⟨⟨0, 0, 0, 0⟩⟩

/-- Shallow embedding of `estimar_tb_otimo` (lines 75-107): for each
candidate Tb recompute Tmed, STd and STa from the coerced columns, run the
regression, and record the row, substituting 0 for the `None`
placeholders.  The surrounding `try`/`except` never fires in this pure
arithmetic, so the fallback row is not modelled. -/
def estimar_tb_otimo (tminCol tmaxCol nfCol : List Cell) (tbRange : List ℚ)
    (inicio : ℕ) : List Row :=
  tbRange.map
    (fun tb =>
      let tmed := calcular_tmed (tminCol.map toNumericCoerce) (tmaxCol.map toNumericCoerce)
      let std := calcular_std tmed tb
      let sta := calcular_sta std
      let nfv := nfCol.map toNumericCoerce
      let r := realizar_regressao sta nfv inicio
      { tb := tb, r2 := r.r2, coef := r.coef.getD 0, intercept := r.intercept.getD 0 })

/-- `np.arange(start, stop, step)` for a positive step, in exact
arithmetic: `⌈(stop - start) / step⌉` evenly spaced values from `start`
(numpy's documented length formula). -/
def arange (start stop step : ℚ) : List ℚ :=
  (List.range (⌈(stop - start) / step⌉.toNat)).map (fun (n : ℕ) => start + (n : ℚ) * step)

/-- Line 232 of `main`: `tb_range = np.arange(tb_min, tb_max + tb_step, tb_step)`. -/
def mainTbRange (tbMin tbMax tbStep : ℚ) : List ℚ :=
  arange tbMin (tbMax + tbStep) tbStep

/-- Lines 240-244 of `main`: `resultados['R²'].idxmax()` then `.loc` —
the first row attaining the maximal R²; pandas `idxmax` raises on an empty
frame. -/
def bestRowExcel : List Row → Option Row
  | [] => none
  | r :: rs => some (rs.foldl (fun b a => if b.r2 < a.r2 then a else b) r)

end Excel

end EstimaTB

deriving instance DecidableEq for Except

section ConcreteEvaluation

attribute [local semireducible] Rat.add Rat.mul Rat.inv Rat.sub

set_option maxRecDepth 100000

namespace EstimaTB

/-! ## Concrete scenario tables -/

/-- A three-day series with temperatures present and every leaf count
missing: the spec's degenerate scenario, as it reaches `calculate_tb`. -/
def allMissingNF : VTable :=
  ⟨[some 0, some 1, some 2], [some 10, some 12, some 14],
    [some 20, some 22, some 24], [none, none, none]⟩

/-- The same degenerate data run through the excel variant with the UI
default grid (tb 5..15 step 0.5): leaf counts are empty cells. -/
def degenerateRows : List Excel.Row :=
  Excel.estimar_tb_otimo [Cell.num 10, Cell.num 12, Cell.num 14]
    [Cell.num 20, Cell.num 22, Cell.num 24] [Cell.empty, Cell.empty, Cell.empty]
    (Excel.mainTbRange 5 15 (1/2)) 0

/-- A one-row table whose only flaw is an unparseable date. -/
def unparseableDateTable : RawTable :=
  ⟨true, true, true, true, [DateCell.unparseable "banana"],
    [Cell.num 10], [Cell.num 20], [Cell.num 1]⟩

/-- A one-row table whose only flaw is `Tmin > Tmax`. -/
def tminGtTmaxTable : RawTable :=
  ⟨true, true, true, true, [DateCell.parseable 0],
    [Cell.num 30], [Cell.num 20], [Cell.num 1]⟩

/-- A two-row table whose only flaw is a decreasing leaf count. -/
def nfDecreaseTable : RawTable :=
  ⟨true, true, true, true, [DateCell.parseable 0, DateCell.parseable 1],
    [Cell.num 10, Cell.num 10], [Cell.num 20, Cell.num 20],
    [Cell.num 5, Cell.num 3]⟩

/-! ## Validation-message structure -/

/-- When the four required columns are present, the message list of
`validate_data` consists exactly of the two data-quality checks: the date
branch contributes nothing because the `errors='raise'` retry runs on the
already-coerced column and never raises. -/
theorem validate_msgs (df : RawTable)
    (hc : (df.hasData && df.hasTmin && df.hasTmax && df.hasNF) = true) :
    (validate_data df).2 =
      (if ((df.tminCol.map toNumericCoerce).zip (df.tmaxCol.map toNumericCoerce)).any
          tmaxLtTmin then [Msg.tminGtTmax] else []) ++
      (if nfDecreaseCheck ((df.nfCol.map toNumericCoerce).filterMap id)
          then [Msg.nfDecrease] else []) := by
  unfold validate_data
  rw [if_neg (by simp [hc])]
  simp only [toDatetimeOnCoerced]
  split <;> simp

/-- When the message list is empty, `validate_data` did return a converted
table (the early return for missing columns always carries a message). -/
theorem validate_fst_isSome (df : RawTable) :
    (validate_data df).2 = [] → (validate_data df).1.isSome = true := by
  unfold validate_data
  split
  · intro h; simp at h
  · intro _; simp

/-! ## Claim C1 -/

/-- Claim C1 states that on a Series whose leaf counts are all missing the
grid search raises no unhandled fault and the BestFit selection signals
"no usable fit".  Evaluating the code at that input shows otherwise:
src/app.py's `calculate_tb` hands the empty regression sample to
`LinearRegression().fit`, which raises an unhandled `ValueError`, and the
excel variant completes with placeholder scores R² = 0 for every candidate
but then selects the first candidate (Tb = tb_min, R² = 0) instead of
signalling "no usable fit" to the caller. -/
theorem c1_degenerate_series_behaviour :
    (App.calculate_tb allMissingNF).2 = .error "Found array with 0 sample(s)"
    ∧ degenerateRows.length = 21
    ∧ (∀ r ∈ degenerateRows, r.r2 = 0)
    ∧ Excel.bestRowExcel degenerateRows = some ⟨5, 0, 0, 0⟩ := by
  refine ⟨by decide, by decide, by decide, by decide⟩

/-! ## Claim C3 -/

/-- Claim C3 asserts that a table with a `Tmin > Tmax` row (and no fatal
error) still gets its Tb estimation run.  Counterexample: on
`tminGtTmaxTable` validation reports exactly the data-quality message, yet
the module-level logic of src/app.py lines 146-154 skips the estimation
whenever the message list is non-empty, so the estimation never runs. -/
theorem c3_counterexample :
    (validate_data tminGtTmaxTable).2 = [Msg.tminGtTmax]
    ∧ App.appRun tminGtTmaxTable = none := by
  refine ⟨by decide, by decide⟩

/-- Claim C3, amended: validation reports `Tmin > Tmax` rows and
leaf-count decreases as messages (`Msg.tminGtTmax`, `Msg.nfDecrease`), but
src/app.py treats every message alike — estimation runs exactly when the
message list is empty, so either data-quality message also prevents the Tb
estimation from running. -/
theorem c3_amended_any_message_blocks_estimation (df : RawTable) :
    ((App.appRun df).isSome = true ↔ (validate_data df).2 = [])
    ∧ ((df.hasData && df.hasTmin && df.hasTmax && df.hasNF) = true →
        ((df.tminCol.map toNumericCoerce).zip (df.tmaxCol.map toNumericCoerce)).any
          tmaxLtTmin = true →
        Msg.tminGtTmax ∈ (validate_data df).2)
    ∧ ((df.hasData && df.hasTmin && df.hasTmax && df.hasNF) = true →
        nfDecreaseCheck ((df.nfCol.map toNumericCoerce).filterMap id) = true →
        Msg.nfDecrease ∈ (validate_data df).2) := by
  refine ⟨?_, ?_, ?_⟩
  · constructor
    · intro h
      rcases hv : validate_data df with ⟨ovt, msgs⟩
      unfold App.appRun at h
      rw [hv] at h
      match ovt, msgs with
      | some vt, [] => rfl
      | some vt, m :: ms => exact absurd h (by simp)
      | none, [] => rfl
      | none, m :: ms => exact absurd h (by simp)
    · intro h
      have hs := validate_fst_isSome df h
      rcases hv : (validate_data df).1 with _ | vt
      · rw [hv] at hs; simp at hs
      · unfold App.appRun
        have : validate_data df = (some vt, []) := by
          rw [Prod.ext_iff]; exact ⟨hv, h⟩
        rw [this]
        rfl
  · intro hc hbad
    rw [validate_msgs df hc, hbad]
    simp
  · intro hc hbad
    rw [validate_msgs df hc, hbad]
    simp

/-- Witness for the amended claim C3 at two concrete tables: one whose
only flaw is `Tmin > Tmax`, one whose only flaw is a decreasing leaf
count; each gets its message reported and neither gets its estimation
run. -/
theorem c3_amended_witness :
    ((tminGtTmaxTable.hasData && tminGtTmaxTable.hasTmin && tminGtTmaxTable.hasTmax
        && tminGtTmaxTable.hasNF) = true)
    ∧ ((tminGtTmaxTable.tminCol.map toNumericCoerce).zip
        (tminGtTmaxTable.tmaxCol.map toNumericCoerce)).any tmaxLtTmin = true
    ∧ Msg.tminGtTmax ∈ (validate_data tminGtTmaxTable).2
    ∧ ((nfDecreaseTable.hasData && nfDecreaseTable.hasTmin && nfDecreaseTable.hasTmax
        && nfDecreaseTable.hasNF) = true)
    ∧ nfDecreaseCheck ((nfDecreaseTable.nfCol.map toNumericCoerce).filterMap id) = true
    ∧ Msg.nfDecrease ∈ (validate_data nfDecreaseTable).2
    ∧ App.appRun nfDecreaseTable = none
    ∧ ((App.appRun nfDecreaseTable).isSome = true
        ↔ (validate_data nfDecreaseTable).2 = []) :=
  ⟨by decide, by decide,
    (c3_amended_any_message_blocks_estimation tminGtTmaxTable).2.1 (by decide) (by decide),
    by decide, by decide,
    (c3_amended_any_message_blocks_estimation nfDecreaseTable).2.2 (by decide) (by decide),
    by decide,
    (c3_amended_any_message_blocks_estimation nfDecreaseTable).1⟩

/-! ## Claim C4 -/

/-- Claim C4 states that a date value unparseable under both strategies
yields a fatal validation error and estimation does not run.  Evaluating
`validate_data` at a table whose date column holds an unparseable string
shows the code instead silently passes the value through as missing:
line 50 overwrites the column with the coerced result before line 53
retries, the retry therefore runs on a datetime column (where `NaT` is
legal) and never raises, the dead `except` branch appends no message, and
the estimation runs anyway. -/
theorem c4_unparseable_date_is_silently_kept :
    validate_data unparseableDateTable
      = (some ⟨[none], [some 10], [some 20], [some 1]⟩, [])
    ∧ (App.appRun unparseableDateTable).isSome = true := by
  refine ⟨by decide, by decide⟩

/-! ## Claim C7 -/

/-- The clamp written as subtract-then-zero-negatives in src/app.py
agrees with `max (v - tb) 0`. -/
theorem clamp_eq_max (v tb : ℚ) :
    (if v - tb < 0 then 0 else v - tb) = max (v - tb) 0 := by
  rcases lt_or_le (v - tb) 0 with h | h
  · rw [if_pos h, max_eq_right h.le]
  · rw [if_neg (not_lt.mpr h), max_eq_left h]

/-- Claim C7: for every Observation with a present mean temperature and
every candidate Tb ≥ 0, the daily thermal sum of both variants equals
`max (Tmed - Tb, 0)` and is therefore non-negative. -/
theorem c7_std_clamped_nonneg (tmeds : List (Option ℚ)) (tb : ℚ) (h : 0 ≤ tb) :
    ∀ i t, tmeds.get? i = some (some t) →
      (Excel.calcular_std tmeds tb).get? i = some (some (max (t - tb) 0))
      ∧ (App.stdCol tb tmeds).get? i = some (some (max (t - tb) 0))
      ∧ 0 ≤ max (t - tb) 0 := by
  intro i t ht
  refine ⟨?_, ?_, le_max_right _ _⟩
  · unfold Excel.calcular_std
    rw [List.get?_map, ht]
    rfl
  · unfold App.stdCol
    rw [List.get?_map, ht]
    simp only [Option.map_some']
    rw [clamp_eq_max]

/-- Witness for claim C7: Tmed = 3, Tb = 1 gives STd = max (3 - 1) 0 in
both variants. -/
theorem c7_witness :
    (0:ℚ) ≤ 1
    ∧ ((Excel.calcular_std [some 3] 1).get? 0 = some (some (max ((3:ℚ) - 1) 0))
        ∧ (App.stdCol 1 [some 3]).get? 0 = some (some (max ((3:ℚ) - 1) 0))
        ∧ (0:ℚ) ≤ max ((3:ℚ) - 1) 0) :=
  ⟨by norm_num, c7_std_clamped_nonneg [some 3] 1 (by norm_num) 0 3 rfl⟩

/-! ## Claim C8 -/

/-- Pointwise domination of possibly-missing values: both are missing
together, and present values of the second are at most those of the
first. -/
def odom : Option ℚ → Option ℚ → Prop
  | some x, some y => y ≤ x
  | none, none => True
  | _, _ => False

/-- numpy's NaN-propagating addition preserves domination. -/
theorem odom_npAdd {a1 a2 x1 x2 : Option ℚ} (ha : odom a1 a2) (hx : odom x1 x2) :
    odom (Excel.npAdd a1 x1) (Excel.npAdd a2 x2) := by
  match a1, a2, x1, x2, ha, hx with
  | some a, some a', some b, some b', ha, hx => exact add_le_add ha hx
  | some a, some a', none, none, _, _ => trivial
  | none, none, some b, some b', _, _ => trivial
  | none, none, none, none, _, _ => trivial

/-- `np.cumsum` preserves pointwise domination, given dominated
accumulators. -/
theorem cumsumNumpyAux_odom : ∀ {xs ys : List (Option ℚ)} {acc1 acc2 : Option ℚ},
    odom acc1 acc2 → List.Forall₂ odom xs ys →
    List.Forall₂ odom (Excel.cumsumNumpyAux acc1 xs) (Excel.cumsumNumpyAux acc2 ys) := by
  intro xs ys acc1 acc2 hacc h
  induction h generalizing acc1 acc2 with
  | nil => exact .nil
  | cons hxy htail ih =>
      exact .cons (odom_npAdd hacc hxy) (ih (odom_npAdd hacc hxy))

/-- pandas `cumsum` (skipna) preserves pointwise domination, given ordered
accumulators. -/
theorem cumsumPandasAux_odom : ∀ {xs ys : List (Option ℚ)} {acc1 acc2 : ℚ},
    acc2 ≤ acc1 → List.Forall₂ odom xs ys →
    List.Forall₂ odom (App.cumsumPandasAux acc1 xs) (App.cumsumPandasAux acc2 ys) := by
  intro xs ys acc1 acc2 hacc h
  induction h generalizing acc1 acc2 with
  | @cons x y txs tys hxy htail ih =>
      match x, y, hxy with
      | some vx, some vy, hxy =>
          exact .cons (add_le_add hacc hxy) (ih (add_le_add hacc hxy))
      | none, none, _ => exact .cons trivial (ih hacc)
  | nil => exact .nil

/-- The excel daily thermal sums at a larger Tb are dominated by those at
a smaller Tb. -/
theorem calcular_std_odom (tmeds : List (Option ℚ)) {tb1 tb2 : ℚ} (h : tb1 ≤ tb2) :
    List.Forall₂ odom (Excel.calcular_std tmeds tb1) (Excel.calcular_std tmeds tb2) := by
  induction tmeds with
  | nil => exact .nil
  | cons t ts ih =>
      refine .cons ?_ ih
      cases t with
      | none => trivial
      | some v => exact max_le_max (sub_le_sub_left h v) le_rfl

/-- Same domination for the src/app.py form of the daily thermal sum. -/
theorem stdCol_odom (tmeds : List (Option ℚ)) {tb1 tb2 : ℚ} (h : tb1 ≤ tb2) :
    List.Forall₂ odom (App.stdCol tb1 tmeds) (App.stdCol tb2 tmeds) := by
  induction tmeds with
  | nil => exact .nil
  | cons t ts ih =>
      refine .cons ?_ ih
      cases t with
      | none => trivial
      | some v =>
          show (if v - tb2 < 0 then 0 else v - tb2) ≤ (if v - tb1 < 0 then 0 else v - tb1)
          rw [clamp_eq_max, clamp_eq_max]
          exact max_le_max (sub_le_sub_left h v) le_rfl

/-- Reading two `Forall₂`-related lists at the same index yields related
values. -/
theorem forall₂_get?_both {α β : Type} {R : α → β → Prop} :
    ∀ {xs : List α} {ys : List β}, List.Forall₂ R xs ys →
      ∀ {i : ℕ} {a : α} {b : β}, xs.get? i = some a → ys.get? i = some b → R a b := by
  intro xs ys h
  induction h with
  | nil => intro i a b ha _; simp at ha
  | cons hxy htail ih =>
      intro i a b ha hb
      cases i with
      | zero =>
          rw [List.get?_cons_zero] at ha hb
          cases ha; cases hb; exact hxy
      | succ n =>
          rw [List.get?_cons_succ] at ha hb
          exact ih ha hb

/-- Claim C8: for a fixed Series and candidates Tb1 ≤ Tb2, every present
daily thermal sum at Tb2 is at most the one at Tb1 at the same position,
and the same holds for the accumulated thermal sums — in the excel variant
(`np.maximum`/`np.cumsum`) and in the src/app.py variant
(clamp/pandas `cumsum`) alike. -/
theorem c8_increasing_tb_never_increases_sums (tmeds : List (Option ℚ)) (tb1 tb2 : ℚ)
    (h : tb1 ≤ tb2) :
    (∀ i v1 v2, (Excel.calcular_std tmeds tb1).get? i = some (some v1) →
        (Excel.calcular_std tmeds tb2).get? i = some (some v2) → v2 ≤ v1)
    ∧ (∀ i v1 v2,
        (Excel.calcular_sta (Excel.calcular_std tmeds tb1)).get? i = some (some v1) →
        (Excel.calcular_sta (Excel.calcular_std tmeds tb2)).get? i = some (some v2) →
        v2 ≤ v1)
    ∧ (∀ i v1 v2, (App.stdCol tb1 tmeds).get? i = some (some v1) →
        (App.stdCol tb2 tmeds).get? i = some (some v2) → v2 ≤ v1)
    ∧ (∀ i v1 v2, (App.cumsumPandas (App.stdCol tb1 tmeds)).get? i = some (some v1) →
        (App.cumsumPandas (App.stdCol tb2 tmeds)).get? i = some (some v2) → v2 ≤ v1) := by
  have hstdE := calcular_std_odom tmeds h
  have hstaE : List.Forall₂ odom (Excel.calcular_sta (Excel.calcular_std tmeds tb1))
      (Excel.calcular_sta (Excel.calcular_std tmeds tb2)) :=
    cumsumNumpyAux_odom (le_refl (0:ℚ)) hstdE
  have hstdA := stdCol_odom tmeds h
  have hstaA : List.Forall₂ odom (App.cumsumPandas (App.stdCol tb1 tmeds))
      (App.cumsumPandas (App.stdCol tb2 tmeds)) :=
    cumsumPandasAux_odom (le_refl (0:ℚ)) hstdA
  exact ⟨fun i v1 v2 h1 h2 => forall₂_get?_both hstdE h1 h2,
    fun i v1 v2 h1 h2 => forall₂_get?_both hstaE h1 h2,
    fun i v1 v2 h1 h2 => forall₂_get?_both hstdA h1 h2,
    fun i v1 v2 h1 h2 => forall₂_get?_both hstaA h1 h2⟩

/-- Witness for claim C8: Tmed = 5, Tb1 = 1 ≤ Tb2 = 2 gives STd 4 and 3,
and 3 ≤ 4. -/
theorem c8_witness :
    (1:ℚ) ≤ 2
    ∧ (Excel.calcular_std [some 5] 1).get? 0 = some (some 4)
    ∧ (Excel.calcular_std [some 5] 2).get? 0 = some (some 3)
    ∧ (3:ℚ) ≤ 4 :=
  ⟨by norm_num, by decide, by decide,
    (c8_increasing_tb_never_increases_sums [some 5] 1 2 (by norm_num)).1 0 4 3
      (by decide) (by decide)⟩

/-! ## Claim C10 -/

/-- One candidate iteration only writes the derived `STd`/`STa` columns:
the four base columns of the frame are untouched. -/
theorem fitCandidate_frame (df : App.EngineDF) (tb : ℚ) :
    ((App.fitCandidate df tb).1).dataCol = df.dataCol
    ∧ ((App.fitCandidate df tb).1).tmin = df.tmin
    ∧ ((App.fitCandidate df tb).1).tmax = df.tmax
    ∧ ((App.fitCandidate df tb).1).nf = df.nf :=
  ⟨rfl, rfl, rfl, rfl⟩

/-- The whole grid loop preserves the four base columns of the frame. -/
theorem gridLoop_frame : ∀ (tbs : List ℚ) (df : App.EngineDF) (acc : List App.FitRow),
    ((App.gridLoop df acc tbs).1).dataCol = df.dataCol
    ∧ ((App.gridLoop df acc tbs).1).tmin = df.tmin
    ∧ ((App.gridLoop df acc tbs).1).tmax = df.tmax
    ∧ ((App.gridLoop df acc tbs).1).nf = df.nf := by
  intro tbs
  induction tbs with
  | nil => intro df acc; exact ⟨rfl, rfl, rfl, rfl⟩
  | cons tb rest ih =>
      intro df acc
      have hf := fitCandidate_frame df tb
      rcases hfc : App.fitCandidate df tb with ⟨df2, res⟩
      rw [hfc] at hf
      cases res with
      | ok row =>
          have hstep : App.gridLoop df acc (tb :: rest)
              = App.gridLoop df2 (acc ++ [row]) rest := by
            simp only [App.gridLoop]
            rw [hfc]
          rw [hstep]
          obtain ⟨h1, h2, h3, h4⟩ := ih df2 (acc ++ [row])
          obtain ⟨g1, g2, g3, g4⟩ := hf
          exact ⟨h1.trans g1, h2.trans g2, h3.trans g3, h4.trans g4⟩
      | error e =>
          have hstep : App.gridLoop df acc (tb :: rest) = (df2, .error e) := by
            simp only [App.gridLoop]
            rw [hfc]
          rw [hstep]
          exact hf

/-- Claim C9: running the estimation engine leaves the supplied Series
unchanged — the final state of the frame that `calculate_tb` mutated still
carries exactly the date, Tmin, Tmax and leaf-count columns it received.
(`validate_data` coerces the raw upload in place before the Series exists,
and the module-level code passes `calculate_tb` a `.copy()`; inside the
engine only the derived columns `Tmed`, `STd`, `STa` are written.) -/
theorem c9_engine_preserves_series (vt : VTable) :
    ((App.calculate_tb vt).1).dataCol = vt.dataCol
    ∧ ((App.calculate_tb vt).1).tmin = vt.tmin
    ∧ ((App.calculate_tb vt).1).tmax = vt.tmax
    ∧ ((App.calculate_tb vt).1).nf = vt.nf := by
  have hf := gridLoop_frame App.base_temps (App.engineStart vt) []
  rcases hg : App.gridLoop (App.engineStart vt) [] App.base_temps with ⟨df2, res⟩
  rw [hg] at hf
  have hcalc : (App.calculate_tb vt).1 = df2 := by
    unfold App.calculate_tb
    rw [hg]
    cases res with
    | error e => rfl
    | ok rows =>
        show (App.finishGrid df2 rows).1 = df2
        unfold App.finishGrid
        cases hb : App.bestRow rows with
        | none => rfl
        | some b => rfl
  rw [hcalc]
  exact hf

/-! ## Claim C5 -/

/-- The regression sample of src/app.py keeps exactly the rows whose leaf
count is present: its response values are the present leaf counts in
order. -/
theorem regPairs_map_snd : ∀ (sta nf : List (Option ℚ)), sta.length = nf.length →
    (App.regPairs sta nf).map Prod.snd = nf.filterMap id := by
  intro sta
  induction sta with
  | nil =>
      intro nf h
      cases nf with
      | nil => rfl
      | cons y ys => simp at h
  | cons x xs ih =>
      intro nf h
      cases nf with
      | nil => simp at h
      | cons y ys =>
          have h' : xs.length = ys.length := by simpa using h
          cases y with
          | none =>
              show (App.regPairs xs ys).map Prod.snd = List.filterMap id ys
              exact ih ys h'
          | some vy =>
              show vy :: (App.regPairs xs ys).map Prod.snd = vy :: List.filterMap id ys
              rw [ih ys h']

/-- pandas `cumsum` preserves the column length. -/
theorem cumsumPandasAux_length : ∀ (xs : List (Option ℚ)) (acc : ℚ),
    (App.cumsumPandasAux acc xs).length = xs.length := by
  intro xs
  induction xs with
  | nil => intro acc; rfl
  | cons x xs ih => intro acc; cases x <;> simp [App.cumsumPandasAux, ih]

/-- On an all-present column, pandas `cumsum` produces the running partial
sums. -/
theorem cumsumPandasAux_map_some : ∀ (xs : List ℚ) (acc : ℚ) (i : ℕ), i < xs.length →
    (App.cumsumPandasAux acc (xs.map some)).get? i
      = some (some (acc + (xs.take (i + 1)).sum)) := by
  intro xs
  induction xs with
  | nil => intro acc i h; simp at h
  | cons v vs ih =>
      intro acc i h
      cases i with
      | zero =>
          show (some (acc + v) :: App.cumsumPandasAux (acc + v) (vs.map some)).get? 0
            = some (some (acc + ((v :: vs).take 1).sum))
          rw [List.get?_cons_zero]
          simp
      | succ n =>
          have hb : n < vs.length := by simpa using h
          show (some (acc + v) :: App.cumsumPandasAux (acc + v) (vs.map some)).get? (n + 1)
            = some (some (acc + ((v :: vs).take (n + 2)).sum))
          rw [List.get?_cons_succ, ih (acc + v) n hb]
          simp [add_assoc]

/-- The src/app.py daily-thermal-sum column of an all-present Tmed column
is the all-present column of clamped values. -/
theorem stdCol_map_some (tb : ℚ) (tmed : List ℚ) :
    App.stdCol tb (tmed.map some)
      = (tmed.map (fun v => if v - tb < 0 then 0 else v - tb)).map some := by
  unfold App.stdCol
  rw [List.map_map, List.map_map]
  rfl

/-- Claim C5: non-numeric cells are coerced to missing without a fatal
message (with the required columns present, validation can only emit the
two data-quality messages), rows with a missing leaf count are excluded
from the regression sample (its responses are exactly the present leaf
counts), and the accumulated thermal sum is computed over the full Series:
at every day it is the sum of the clamped daily sums of all days so far,
measurement day or not. -/
theorem c5_missing_nf_excluded_but_accumulated (s : String) (df : RawTable)
    (hc : (df.hasData && df.hasTmin && df.hasTmax && df.hasNF) = true)
    (tb : ℚ) (tmed : List ℚ) (nf : List (Option ℚ))
    (hlen : tmed.length = nf.length) :
    toNumericCoerce (Cell.text s) = none
    ∧ (∀ m ∈ (validate_data df).2, m = Msg.tminGtTmax ∨ m = Msg.nfDecrease)
    ∧ (App.regPairs (App.cumsumPandas (App.stdCol tb (tmed.map some))) nf).map Prod.snd
        = nf.filterMap id
    ∧ (∀ i, i < tmed.length →
        (App.cumsumPandas (App.stdCol tb (tmed.map some))).get? i
          = some (some (((tmed.take (i + 1)).map
              (fun v => if v - tb < 0 then 0 else v - tb)).sum))) := by
  refine ⟨rfl, ?_, ?_, ?_⟩
  · intro m hm
    rw [validate_msgs df hc] at hm
    rcases List.mem_append.mp hm with h | h
    · by_cases hb : ((df.tminCol.map toNumericCoerce).zip
          (df.tmaxCol.map toNumericCoerce)).any tmaxLtTmin = true
      · rw [if_pos hb] at h
        simp at h
        exact Or.inl h
      · rw [if_neg hb] at h
        simp at h
    · by_cases hb : nfDecreaseCheck ((df.nfCol.map toNumericCoerce).filterMap id) = true
      · rw [if_pos hb] at h
        simp at h
        exact Or.inr h
      · rw [if_neg hb] at h
        simp at h
  · have hl : (App.cumsumPandas (App.stdCol tb (tmed.map some))).length = nf.length := by
      unfold App.cumsumPandas
      rw [cumsumPandasAux_length]
      unfold App.stdCol
      rw [List.length_map, List.length_map]
      exact hlen
    exact regPairs_map_snd _ nf hl
  · intro i hi
    rw [stdCol_map_some]
    have hkey := cumsumPandasAux_map_some
      (tmed.map (fun v => if v - tb < 0 then 0 else v - tb)) 0 i (by simpa using hi)
    rw [zero_add] at hkey
    unfold App.cumsumPandas
    rw [hkey, List.map_take]

/-- A table with a non-numeric temperature cell and an empty leaf-count
cell, for the witness of claim C5. -/
def mixedCellsTable : RawTable :=
  ⟨true, true, true, true, [DateCell.parseable 0, DateCell.parseable 1],
    [Cell.num 10, Cell.num 12], [Cell.num 20, Cell.text "oops"],
    [Cell.empty, Cell.num 3]⟩

/-- Witness for claim C5 on `mixedCellsTable` and the two-day series
Tmed = [10, 20], NF = [missing, 3], Tb = 5. -/
theorem c5_witness :
    ((mixedCellsTable.hasData && mixedCellsTable.hasTmin && mixedCellsTable.hasTmax
        && mixedCellsTable.hasNF) = true)
    ∧ ([(10:ℚ), 20]).length = ([none, some 3] : List (Option ℚ)).length
    ∧ toNumericCoerce (Cell.text "oops") = none
    ∧ (App.regPairs (App.cumsumPandas (App.stdCol 5 ([(10:ℚ), 20].map some)))
        [none, some 3]).map Prod.snd = List.filterMap id [none, some 3]
    ∧ (App.cumsumPandas (App.stdCol 5 ([(10:ℚ), 20].map some))).get? 1
        = some (some ((([(10:ℚ), 20].take 2).map
            (fun v => if v - 5 < 0 then 0 else v - 5)).sum)) :=
  ⟨by decide, by decide,
    (c5_missing_nf_excluded_but_accumulated "oops" mixedCellsTable (by decide)
      5 [10, 20] [none, some 3] (by decide)).1,
    (c5_missing_nf_excluded_but_accumulated "oops" mixedCellsTable (by decide)
      5 [10, 20] [none, some 3] (by decide)).2.2.1,
    (c5_missing_nf_excluded_but_accumulated "oops" mixedCellsTable (by decide)
      5 [10, 20] [none, some 3] (by decide)).2.2.2 1 (by decide)⟩

/-! ## Claim C6 -/

/-- Claim C6 asserts that for every configured range with `tb_step > 0`
and `tb_min ≤ tb_max` the results table has exactly
`(tb_max − tb_min)/tb_step + 1` rows with both endpoints included.
Counterexample at tb_min = 0, tb_max = 1, tb_step = 2/5:
`np.arange(0, 1 + 2/5, 2/5)` yields 4 candidates, the claimed count
`(1 − 0)/(2/5) + 1 = 7/2` is not even a whole number, and the last
candidate 6/5 exceeds tb_max. -/
theorem c6_counterexample :
    (Excel.estimar_tb_otimo [] [] [] (Excel.mainTbRange 0 1 (2/5)) 0).length = 4
    ∧ ((1 - 0 : ℚ) / (2/5) + 1) = 7/2
    ∧ ((Excel.estimar_tb_otimo [] [] [] (Excel.mainTbRange 0 1 (2/5)) 0).length : ℚ)
        ≠ 7/2
    ∧ ((Excel.estimar_tb_otimo [] [] [] (Excel.mainTbRange 0 1 (2/5)) 0).map
        (fun r => r.tb)).getLast? = some (6/5) := by
  have hlen : (Excel.estimar_tb_otimo [] [] [] (Excel.mainTbRange 0 1 (2/5)) 0).length
      = 4 := by decide
  refine ⟨hlen, by norm_num, ?_, by decide⟩
  rw [hlen]
  norm_num

/-- The Tb column of the excel results table is exactly the candidate
range handed to `estimar_tb_otimo`, in order. -/
theorem estimar_tb_otimo_map_tb (tminCol tmaxCol nfCol : List Cell) (inicio : ℕ)
    (tbR : List ℚ) :
    (Excel.estimar_tb_otimo tminCol tmaxCol nfCol tbR inicio).map (fun r => r.tb)
      = tbR := by
  unfold Excel.estimar_tb_otimo
  rw [List.map_map]
  exact (List.map_congr_left fun x _ => rfl).trans (List.map_id tbR)

/-- Claim C6, amended: when `tb_step` exactly divides `tb_max − tb_min`
(`tb_max − tb_min = k·tb_step`), the results table has exactly
`(tb_max − tb_min)/tb_step + 1 = k + 1` rows, one per candidate, the Tb
column is `tb_min, tb_min + tb_step, …, tb_max` — both endpoints included,
strictly ascending — and src/app.py's fixed grid has 41 = (20−0)/0.5 + 1
rows.  Without the divisibility condition `np.arange(tb_min,
tb_max + tb_step, tb_step)` overshoots `tb_max` (see the
counterexample). -/
theorem c6_amended_results_length (tminCol tmaxCol nfCol : List Cell) (inicio : ℕ)
    (a b s : ℚ) (hs : 0 < s) (k : ℕ) (hk : b - a = k * s) :
    (Excel.estimar_tb_otimo tminCol tmaxCol nfCol (Excel.mainTbRange a b s) inicio).length
        = k + 1
    ∧ ((b - a) / s + 1 : ℚ) = ((k + 1 : ℕ) : ℚ)
    ∧ (Excel.estimar_tb_otimo tminCol tmaxCol nfCol (Excel.mainTbRange a b s) inicio).map
        (fun r => r.tb) = (List.range (k + 1)).map (fun (j : ℕ) => a + (j : ℚ) * s)
    ∧ ((Excel.estimar_tb_otimo tminCol tmaxCol nfCol (Excel.mainTbRange a b s)
        inicio).map (fun r => r.tb)).get? 0 = some a
    ∧ ((Excel.estimar_tb_otimo tminCol tmaxCol nfCol (Excel.mainTbRange a b s)
        inicio).map (fun r => r.tb)).get? k = some b
    ∧ List.Pairwise (· < ·)
        ((Excel.estimar_tb_otimo tminCol tmaxCol nfCol (Excel.mainTbRange a b s)
          inicio).map (fun r => r.tb))
    ∧ App.base_temps.length = 41 := by
  have hb : b = a + k * s := by linarith [hk]
  have hcount : (⌈(b + s - a) / s⌉).toNat = k + 1 := by
    have h1 : b + s - a = ((k + 1 : ℕ) : ℚ) * s := by push_cast; linarith [hk]
    rw [h1, mul_div_cancel_right₀ _ (ne_of_gt hs), Int.ceil_natCast, Int.toNat_natCast]
  have hrange : Excel.mainTbRange a b s = (List.range (k + 1)).map (fun (j : ℕ) => a + (j : ℚ) * s) := by
    unfold Excel.mainTbRange Excel.arange
    rw [hcount]
  have hmap := estimar_tb_otimo_map_tb tminCol tmaxCol nfCol inicio (Excel.mainTbRange a b s)
  refine ⟨?_, ?_, ?_, ?_, ?_, ?_, ?_⟩
  · have := congrArg List.length hmap
    rw [List.length_map] at this
    rw [this, hrange, List.length_map, List.length_range]
  · rw [hk, mul_div_cancel_right₀ _ (ne_of_gt hs)]
    push_cast
    ring
  · rw [hmap, hrange]
  · rw [hmap, hrange, List.get?_map, List.get?_range (Nat.succ_pos k)]
    simp
  · rw [hmap, hrange, List.get?_map, List.get?_range (Nat.lt_succ_self k)]
    rw [Option.map_some']
    rw [hb]
  · rw [hmap, hrange]
    refine List.Pairwise.map _ ?_ (List.pairwise_lt_range (k + 1))
    intro x y hxy
    have hc : (x : ℚ) < y := by exact_mod_cast hxy
    have := mul_lt_mul_of_pos_right hc hs
    linarith
  · rfl

/-- Witness for the amended claim C6 at tb_min = 0, tb_max = 1,
tb_step = 1/2 (k = 2 steps). -/
theorem c6_witness :
    (0:ℚ) < 1/2
    ∧ (1 - 0 : ℚ) = ((2:ℕ) : ℚ) * (1/2)
    ∧ (Excel.estimar_tb_otimo [] [] [] (Excel.mainTbRange 0 1 (1/2)) 0).length = 2 + 1 :=
  ⟨by norm_num, by push_cast; norm_num,
    (c6_amended_results_length [] [] [] 0 0 1 (1/2) (by norm_num) 2
      (by push_cast; norm_num)).1⟩

/-! ## Claim C2

pandas `idxmin`/`idxmax` return the index of the first row attaining the
extremum; `bestRow`/`bestRowExcel` realise them as left folds that replace
the current row only on a strict improvement.  The lemmas below show such
a fold returns a member attaining the extremum whose earlier rows are all
strictly worse — the stable argmin/argmax. -/

/-- The left fold behind pandas `idxmin`: keeps the earlier row unless the
new one is strictly smaller. -/
def pickMin {α : Type} (f : α → ℚ) (x : α) (xs : List α) : α :=
  xs.foldl (fun b a => if f a < f b then a else b) x

/-- The left fold behind pandas `idxmax`: keeps the earlier row unless the
new one is strictly larger. -/
def pickMax {α : Type} (f : α → ℚ) (x : α) (xs : List α) : α :=
  xs.foldl (fun b a => if f b < f a then a else b) x

theorem pickMin_cons {α : Type} (f : α → ℚ) (x a : α) (xs : List α) :
    pickMin f x (a :: xs) = pickMin f (if f a < f x then a else x) xs := rfl

theorem pickMax_cons {α : Type} (f : α → ℚ) (x a : α) (xs : List α) :
    pickMax f x (a :: xs) = pickMax f (if f x < f a then a else x) xs := rfl

theorem pickMin_mem {α : Type} (f : α → ℚ) : ∀ (xs : List α) (x : α),
    pickMin f x xs ∈ x :: xs := by
  intro xs
  induction xs with
  | nil => intro x; exact List.mem_singleton.mpr rfl
  | cons a xs ih =>
      intro x
      rw [pickMin_cons]
      rcases List.mem_cons.mp (ih (if f a < f x then a else x)) with h | h
      · rw [h]
        by_cases hc : f a < f x
        · rw [if_pos hc]; exact List.mem_cons_of_mem x (List.mem_cons_self a xs)
        · rw [if_neg hc]; exact List.mem_cons_self x (a :: xs)
      · exact List.mem_cons_of_mem x (List.mem_cons_of_mem a h)

theorem pickMax_mem {α : Type} (f : α → ℚ) : ∀ (xs : List α) (x : α),
    pickMax f x xs ∈ x :: xs := by
  intro xs
  induction xs with
  | nil => intro x; exact List.mem_singleton.mpr rfl
  | cons a xs ih =>
      intro x
      rw [pickMax_cons]
      rcases List.mem_cons.mp (ih (if f x < f a then a else x)) with h | h
      · rw [h]
        by_cases hc : f x < f a
        · rw [if_pos hc]; exact List.mem_cons_of_mem x (List.mem_cons_self a xs)
        · rw [if_neg hc]; exact List.mem_cons_self x (a :: xs)
      · exact List.mem_cons_of_mem x (List.mem_cons_of_mem a h)

theorem pickMin_le {α : Type} (f : α → ℚ) : ∀ (xs : List α) (x : α),
    ∀ s ∈ x :: xs, f (pickMin f x xs) ≤ f s := by
  intro xs
  induction xs with
  | nil =>
      intro x s hs
      rw [List.mem_singleton.mp hs]
      exact le_refl _
  | cons a xs ih =>
      intro x s hs
      rw [pickMin_cons]
      have hhead : f (pickMin f (if f a < f x then a else x) xs)
          ≤ f (if f a < f x then a else x) :=
        ih _ _ (List.mem_cons_self _ _)
      rcases List.mem_cons.mp hs with h | h
      · subst h
        by_cases hc : f a < f s
        · rw [if_pos hc] at hhead ⊢
          exact le_trans hhead hc.le
        · rw [if_neg hc] at hhead ⊢
          exact hhead
      · rcases List.mem_cons.mp h with h' | h'
        · subst h'
          by_cases hc : f s < f x
          · rw [if_pos hc] at hhead ⊢
            exact hhead
          · rw [if_neg hc] at hhead ⊢
            exact le_trans hhead (not_lt.mp hc)
        · exact ih _ s (List.mem_cons_of_mem _ h')

theorem pickMax_ge {α : Type} (f : α → ℚ) : ∀ (xs : List α) (x : α),
    ∀ s ∈ x :: xs, f s ≤ f (pickMax f x xs) := by
  intro xs
  induction xs with
  | nil =>
      intro x s hs
      rw [List.mem_singleton.mp hs]
      exact le_refl _
  | cons a xs ih =>
      intro x s hs
      rw [pickMax_cons]
      have hhead : f (if f x < f a then a else x)
          ≤ f (pickMax f (if f x < f a then a else x) xs) :=
        ih _ _ (List.mem_cons_self _ _)
      rcases List.mem_cons.mp hs with h | h
      · subst h
        by_cases hc : f s < f a
        · rw [if_pos hc] at hhead ⊢
          exact le_trans hc.le hhead
        · rw [if_neg hc] at hhead ⊢
          exact hhead
      · rcases List.mem_cons.mp h with h' | h'
        · subst h'
          by_cases hc : f x < f s
          · rw [if_pos hc] at hhead ⊢
            exact hhead
          · rw [if_neg hc] at hhead ⊢
            exact le_trans (not_lt.mp hc) hhead
        · exact ih _ s (List.mem_cons_of_mem _ h')

theorem pickMin_first {α : Type} (f : α → ℚ) : ∀ (xs : List α) (x : α),
    ∃ k, (x :: xs).get? k = some (pickMin f x xs)
      ∧ ∀ j, j < k → ∀ s, (x :: xs).get? j = some s → f (pickMin f x xs) < f s := by
  intro xs
  induction xs with
  | nil => exact fun x => ⟨0, rfl, fun j hj s _ => absurd hj (Nat.not_lt_zero j)⟩
  | cons a xs ih =>
      intro x
      rw [pickMin_cons]
      by_cases hc : f a < f x
      · rw [if_pos hc]
        obtain ⟨k, hk, hfirst⟩ := ih a
        refine ⟨k + 1, ?_, ?_⟩
        · rw [List.get?_cons_succ]; exact hk
        · intro j hj s hs
          cases j with
          | zero =>
              rw [List.get?_cons_zero] at hs
              obtain rfl := Option.some.inj hs
              have h1 : f (pickMin f a xs) ≤ f a :=
                pickMin_le f xs a a (List.mem_cons_self a xs)
              exact lt_of_le_of_lt h1 hc
          | succ m =>
              rw [List.get?_cons_succ] at hs
              exact hfirst m (Nat.lt_of_succ_lt_succ hj) s hs
      · rw [if_neg hc]
        obtain ⟨k, hk, hfirst⟩ := ih x
        cases k with
        | zero =>
            rw [List.get?_cons_zero] at hk
            exact ⟨0, by rw [List.get?_cons_zero]; exact hk,
              fun j hj s _ => absurd hj (Nat.not_lt_zero j)⟩
        | succ m =>
            rw [List.get?_cons_succ] at hk
            refine ⟨m + 2, ?_, ?_⟩
            · rw [List.get?_cons_succ, List.get?_cons_succ]; exact hk
            · intro j hj s hs
              cases j with
              | zero =>
                  rw [List.get?_cons_zero] at hs
                  obtain rfl := Option.some.inj hs
                  exact hfirst 0 (Nat.succ_pos m) x rfl
              | succ n =>
                  rw [List.get?_cons_succ] at hs
                  cases n with
                  | zero =>
                      rw [List.get?_cons_zero] at hs
                      obtain rfl := Option.some.inj hs
                      have h1 : f (pickMin f x xs) < f x :=
                        hfirst 0 (Nat.succ_pos m) x rfl
                      exact lt_of_lt_of_le h1 (not_lt.mp hc)
                  | succ p =>
                      rw [List.get?_cons_succ] at hs
                      refine hfirst (p + 1) (by omega) s ?_
                      rw [List.get?_cons_succ]
                      exact hs

theorem pickMax_first {α : Type} (f : α → ℚ) : ∀ (xs : List α) (x : α),
    ∃ k, (x :: xs).get? k = some (pickMax f x xs)
      ∧ ∀ j, j < k → ∀ s, (x :: xs).get? j = some s → f s < f (pickMax f x xs) := by
  intro xs
  induction xs with
  | nil => exact fun x => ⟨0, rfl, fun j hj s _ => absurd hj (Nat.not_lt_zero j)⟩
  | cons a xs ih =>
      intro x
      rw [pickMax_cons]
      by_cases hc : f x < f a
      · rw [if_pos hc]
        obtain ⟨k, hk, hfirst⟩ := ih a
        refine ⟨k + 1, ?_, ?_⟩
        · rw [List.get?_cons_succ]; exact hk
        · intro j hj s hs
          cases j with
          | zero =>
              rw [List.get?_cons_zero] at hs
              obtain rfl := Option.some.inj hs
              have h1 : f a ≤ f (pickMax f a xs) :=
                pickMax_ge f xs a a (List.mem_cons_self a xs)
              exact lt_of_lt_of_le hc h1
          | succ m =>
              rw [List.get?_cons_succ] at hs
              exact hfirst m (Nat.lt_of_succ_lt_succ hj) s hs
      · rw [if_neg hc]
        obtain ⟨k, hk, hfirst⟩ := ih x
        cases k with
        | zero =>
            rw [List.get?_cons_zero] at hk
            exact ⟨0, by rw [List.get?_cons_zero]; exact hk,
              fun j hj s _ => absurd hj (Nat.not_lt_zero j)⟩
        | succ m =>
            rw [List.get?_cons_succ] at hk
            refine ⟨m + 2, ?_, ?_⟩
            · rw [List.get?_cons_succ, List.get?_cons_succ]; exact hk
            · intro j hj s hs
              cases j with
              | zero =>
                  rw [List.get?_cons_zero] at hs
                  obtain rfl := Option.some.inj hs
                  exact hfirst 0 (Nat.succ_pos m) x rfl
              | succ n =>
                  rw [List.get?_cons_succ] at hs
                  cases n with
                  | zero =>
                      rw [List.get?_cons_zero] at hs
                      obtain rfl := Option.some.inj hs
                      have h1 : f x < f (pickMax f x xs) :=
                        hfirst 0 (Nat.succ_pos m) x rfl
                      exact lt_of_le_of_lt (not_lt.mp hc) h1
                  | succ p =>
                      rw [List.get?_cons_succ] at hs
                      refine hfirst (p + 1) (by omega) s ?_
                      rw [List.get?_cons_succ]
                      exact hs

/-- `bestRow` on a non-empty results table is the stable-argmin fold over
QME. -/
theorem bestRow_cons (r : App.FitRow) (rs : List App.FitRow) :
    App.bestRow (r :: rs) = some (pickMin (fun t => t.qme) r rs) := rfl

/-- `bestRowExcel` on a non-empty results table is the stable-argmax fold
over R². -/
theorem bestRowExcel_cons (r : Excel.Row) (rs : List Excel.Row) :
    Excel.bestRowExcel (r :: rs) = some (pickMax (fun t => t.r2) r rs) := rfl

/-- A successful candidate fit records exactly its own Tb. -/
theorem fitCandidate_ok_tb {df df2 : App.EngineDF} {tb : ℚ} {row : App.FitRow}
    (h : App.fitCandidate df tb = (df2, .ok row)) : row.tb = tb := by
  have h2 : (App.fitCandidate df tb).2 = .ok row := by rw [h]
  dsimp only [App.fitCandidate] at h2
  split at h2
  · exact Except.noConfusion h2
  · split at h2
    · exact Except.noConfusion h2
    · obtain rfl := Except.ok.inj h2
      rfl

/-- A grid loop that succeeds produces one row per remaining candidate, in
order, after the rows already accumulated. -/
theorem gridLoop_ok_tbs : ∀ (tbs : List ℚ) (df : App.EngineDF)
    (acc rows : List App.FitRow),
    (App.gridLoop df acc tbs).2 = .ok rows →
    rows.map (fun t => t.tb) = acc.map (fun t => t.tb) ++ tbs := by
  intro tbs
  induction tbs with
  | nil =>
      intro df acc rows h
      have h' : (Except.ok acc : Except String (List App.FitRow)) = .ok rows := h
      rw [← Except.ok.inj h', List.append_nil]
  | cons tb rest ih =>
      intro df acc rows h
      rcases hfc : App.fitCandidate df tb with ⟨df2, res⟩
      cases res with
      | ok row =>
          have hstep : App.gridLoop df acc (tb :: rest)
              = App.gridLoop df2 (acc ++ [row]) rest := by
            simp only [App.gridLoop]
            rw [hfc]
          rw [hstep] at h
          have htb : row.tb = tb := fitCandidate_ok_tb hfc
          have hmap := ih df2 (acc ++ [row]) rows h
          rw [hmap, List.map_append]
          simp [htb]
      | error e =>
          have hstep : App.gridLoop df acc (tb :: rest) = (df2, .error e) := by
            simp only [App.gridLoop]
            rw [hfc]
          rw [hstep] at h
          exact Except.noConfusion h

/-- Inversion of a successful `calculate_tb` run: the grid loop produced
the results table and `bestRow` selected the best row from it. -/
theorem calculate_tb_ok {vt : VTable} {results : List App.FitRow} {best : App.FitRow}
    (h : (App.calculate_tb vt).2 = .ok (results, best)) :
    (App.gridLoop (App.engineStart vt) [] App.base_temps).2 = .ok results
    ∧ App.bestRow results = some best := by
  unfold App.calculate_tb at h
  rcases hg : App.gridLoop (App.engineStart vt) [] App.base_temps with ⟨df2, res⟩
  rw [hg] at h
  cases res with
  | error e => exact Except.noConfusion h
  | ok rows =>
      have h' : (App.finishGrid df2 rows).2 = .ok (results, best) := h
      unfold App.finishGrid at h'
      rcases hb : App.bestRow rows with _ | b
      · rw [hb] at h'
        exact Except.noConfusion h'
      · rw [hb] at h'
        have h2 : (rows, b) = (results, best) := Except.ok.inj h'
        injection h2 with hA hB
        subst hA
        subst hB
        exact ⟨rfl, hb⟩

/-- The fixed candidate grid of src/app.py is strictly ascending. -/
theorem base_temps_pairwise : List.Pairwise (· < ·) App.base_temps := by
  refine List.Pairwise.map _ ?_ (List.pairwise_lt_range 41)
  intro x y hxy
  have hc : (x : ℚ) < y := by exact_mod_cast hxy
  linarith

/-- Claim C2: the best fit is a stable extremum over a single metric.  In
src/app.py a successful run returns a results table whose Tb column is the
fixed ascending grid and a best row that is a member attaining the minimal
QME such that every strictly earlier row has strictly larger QME (pandas
`idxmin`: first minimum in ascending-Tb order).  In the excel variant the
results table lists one row per candidate in range order and the selected
row attains the maximal R², every strictly earlier row being strictly
smaller (pandas `idxmax`).  Neither selection consults the other metric. -/
theorem c2_best_fit_stable_selection
    (vt : VTable) (results : List App.FitRow) (best : App.FitRow)
    (happ : (App.calculate_tb vt).2 = .ok (results, best))
    (tminCol tmaxCol nfCol : List Cell) (tbR : List ℚ) (inicio : ℕ) (r : Excel.Row)
    (hexc : Excel.bestRowExcel (Excel.estimar_tb_otimo tminCol tmaxCol nfCol tbR inicio)
      = some r) :
    (results.map (fun t => t.tb) = App.base_temps
      ∧ List.Pairwise (· < ·) (results.map (fun t => t.tb))
      ∧ best ∈ results
      ∧ (∀ s ∈ results, best.qme ≤ s.qme)
      ∧ (∃ k, results.get? k = some best
          ∧ ∀ j, j < k → ∀ s, results.get? j = some s → best.qme < s.qme))
    ∧ ((Excel.estimar_tb_otimo tminCol tmaxCol nfCol tbR inicio).map (fun t => t.tb) = tbR
      ∧ r ∈ Excel.estimar_tb_otimo tminCol tmaxCol nfCol tbR inicio
      ∧ (∀ s ∈ Excel.estimar_tb_otimo tminCol tmaxCol nfCol tbR inicio, s.r2 ≤ r.r2)
      ∧ (∃ k, (Excel.estimar_tb_otimo tminCol tmaxCol nfCol tbR inicio).get? k = some r
          ∧ ∀ j, j < k → ∀ s,
              (Excel.estimar_tb_otimo tminCol tmaxCol nfCol tbR inicio).get? j = some s →
              s.r2 < r.r2)) := by
  constructor
  · obtain ⟨hgrid, hbest⟩ := calculate_tb_ok happ
    have hmap : results.map (fun t => t.tb) = App.base_temps := by
      have := gridLoop_ok_tbs App.base_temps (App.engineStart vt) [] results hgrid
      simpa using this
    refine ⟨hmap, hmap ▸ base_temps_pairwise, ?_, ?_, ?_⟩
    all_goals
      cases results with
      | nil => exact Option.noConfusion hbest
      | cons r0 rest =>
          rw [bestRow_cons] at hbest
          obtain rfl := Option.some.inj hbest
          first
          | exact pickMin_mem _ rest r0
          | exact pickMin_le _ rest r0
          | exact pickMin_first _ rest r0
  · rcases hrows : Excel.estimar_tb_otimo tminCol tmaxCol nfCol tbR inicio with _ | ⟨r0, rest⟩
    · rw [hrows] at hexc
      exact Option.noConfusion hexc
    · rw [hrows] at hexc
      rw [bestRowExcel_cons] at hexc
      obtain rfl := Option.some.inj hexc
      refine ⟨?_, ?_, ?_, ?_⟩
      · have := estimar_tb_otimo_map_tb tminCol tmaxCol nfCol inicio tbR
        rw [hrows] at this
        exact this
      · exact pickMax_mem _ rest r0
      · exact pickMax_ge _ rest r0
      · exact pickMax_first _ rest r0

/-- A two-day series on which `calculate_tb` succeeds, for the witness of
claim C2. -/
def twoPointSeries : VTable :=
  ⟨[some 0, some 1], [some 10, some 12], [some 20, some 22], [some 2, some 4]⟩

/-- The outcome of `calculate_tb` on `twoPointSeries`, projected for the
witness of claim C2. -/
def twoPointOutcome : List App.FitRow × App.FitRow :=
  ((App.calculate_tb twoPointSeries).2).toOption.getD ([], ⟨0, 0, none⟩)

/-- Witness for claim C2: a concrete run of both engines, with the claim's
selection properties instantiated on it. -/
theorem c2_witness :
    (App.calculate_tb twoPointSeries).2 = .ok (twoPointOutcome.1, twoPointOutcome.2)
    ∧ Excel.bestRowExcel (Excel.estimar_tb_otimo [Cell.num 10, Cell.num 12]
        [Cell.num 20, Cell.num 22] [Cell.num 2, Cell.num 4] [5, 6] 0)
        = some (Excel.estimar_tb_otimo [Cell.num 10, Cell.num 12]
          [Cell.num 20, Cell.num 22] [Cell.num 2, Cell.num 4] [5, 6] 0).headI
    ∧ twoPointOutcome.1.map (fun t => t.tb) = App.base_temps
    ∧ twoPointOutcome.2 ∈ twoPointOutcome.1
    ∧ (∀ s ∈ Excel.estimar_tb_otimo [Cell.num 10, Cell.num 12]
        [Cell.num 20, Cell.num 22] [Cell.num 2, Cell.num 4] [5, 6] 0,
        s.r2 ≤ ((Excel.estimar_tb_otimo [Cell.num 10, Cell.num 12]
          [Cell.num 20, Cell.num 22] [Cell.num 2, Cell.num 4] [5, 6] 0).headI).r2) := by
  have happ : (App.calculate_tb twoPointSeries).2
      = .ok (twoPointOutcome.1, twoPointOutcome.2) := by decide
  have hexc : Excel.bestRowExcel (Excel.estimar_tb_otimo [Cell.num 10, Cell.num 12]
      [Cell.num 20, Cell.num 22] [Cell.num 2, Cell.num 4] [5, 6] 0)
      = some (Excel.estimar_tb_otimo [Cell.num 10, Cell.num 12]
        [Cell.num 20, Cell.num 22] [Cell.num 2, Cell.num 4] [5, 6] 0).headI := by decide
  have hmain := c2_best_fit_stable_selection twoPointSeries twoPointOutcome.1
    twoPointOutcome.2 happ [Cell.num 10, Cell.num 12] [Cell.num 20, Cell.num 22]
    [Cell.num 2, Cell.num 4] [5, 6] 0
    ((Excel.estimar_tb_otimo [Cell.num 10, Cell.num 12] [Cell.num 20, Cell.num 22]
      [Cell.num 2, Cell.num 4] [5, 6] 0).headI) hexc
  exact ⟨happ, hexc, hmain.1.1, hmain.1.2.2.1, hmain.2.2.2.1⟩

end EstimaTB

end ConcreteEvaluation
